import Mathlib

/-!
Verification of the yt_transcribe backend against its specification.

The definitions below are shallow embeddings of the Python source:
* `app/services/transcription_service.py` (the job pipeline),
* `app/api/routes/transcription.py` (cancel / retry / background task),
* `app/services/video_service.py` and `app/domains/videos/services.py`
  (`parse_duration_string`),
* `app/services/channel_service.py` (URL validator and channel deletion),
* `app/services/youtube_api.py` (`_handle_http_error`).

External effects (yt-dlp download, ffmpeg extraction, Deepgram call, file
writes, clock reads) are passed in as an explicit environment of outcomes;
database commits are modelled as explicit state passing, with the list of
job statuses committed recorded as a trace.
-/

namespace YtTranscribe

/-- `JobStatus` enum from `app/models.py`. -/
inductive JobStatus where
  | pending
  | downloading
  | processing
  | completed
  | failed
  | cancelled
deriving DecidableEq, Repr

/-- `TranscriptFormat` enum from `app/models.py` (txt/srt/vtt). -/
inductive TranscriptFormat where
  | txt
  | srt
  | vtt
deriving DecidableEq, Repr

/-- The `TranscriptionJob` record (columns relevant to the claims).
Timestamps are modelled as abstract `Nat` clock values. -/
structure TranscriptionJob where
  id : Nat
  videoId : Nat
  status : JobStatus
  format : TranscriptFormat
  outputFilePath : Option String
  transcriptContent : Option String
  deepgramResponse : Option String
  errorMessage : Option String
  progressPercentage : Nat
  startedAt : Option Nat
  completedAt : Option Nat
deriving DecidableEq, Repr

/-- The `Video` record (columns relevant to the claims). -/
structure Video where
  id : Nat
  youtubeId : String
  channelId : Option Nat
  url : String
  videoFilePath : Option String
  audioFilePath : Option String
deriving DecidableEq, Repr

/-- An HTTP error response as raised by `fastapi.HTTPException`. -/
structure HttpErrorResp where
  statusCode : Nat
  detail : String
deriving DecidableEq, Repr

/-- `cancel_transcription_job` (routes/transcription.py, DELETE handler),
after the job has been looked up: reject terminal states with a 400,
otherwise set status to cancelled and stamp `completed_at`. -/
def cancel_transcription_job (now : Nat) (job : TranscriptionJob) :
    Except HttpErrorResp TranscriptionJob :=
  if job.status = JobStatus.completed ∨ job.status = JobStatus.failed ∨
      job.status = JobStatus.cancelled then
    Except.error ⟨400, "Cannot cancel job with status"⟩
  else
    Except.ok { job with status := JobStatus.cancelled, completedAt := some now }

/-- `retry_transcription_job` (routes/transcription.py, POST retry handler),
after the job has been looked up: only failed or cancelled jobs may be
retried; a retried job is reset to pending with all result fields cleared. -/
def retry_transcription_job (job : TranscriptionJob) :
    Except HttpErrorResp TranscriptionJob :=
  if job.status ≠ JobStatus.failed ∧ job.status ≠ JobStatus.cancelled then
    Except.error ⟨400, "Cannot retry job with status"⟩
  else
    Except.ok { job with
      status := JobStatus.pending
      errorMessage := none
      progressPercentage := 0
      startedAt := none
      completedAt := none
      transcriptContent := none
      deepgramResponse := none }

/-- A status is non-terminal when the job is still in flight
(pending, downloading or processing). -/
def nonTerminal : JobStatus → Bool
  | JobStatus.pending => true
  | JobStatus.downloading => true
  | JobStatus.processing => true
  | _ => false

/-- Sample job fixture: a freshly created pending job. -/
def exPendingJob : TranscriptionJob :=
  { id := 1, videoId := 42, status := JobStatus.pending,
    format := TranscriptFormat.txt, outputFilePath := none,
    transcriptContent := none, deepgramResponse := none,
    errorMessage := none, progressPercentage := 0,
    startedAt := none, completedAt := none }

/-- Sample job fixture: a completed job with stored transcript. -/
def exCompletedJob : TranscriptionJob :=
  { id := 2, videoId := 42, status := JobStatus.completed,
    format := TranscriptFormat.txt, outputFilePath := none,
    transcriptContent := some "hello world", deepgramResponse := some "raw",
    errorMessage := none, progressPercentage := 100,
    startedAt := some 3, completedAt := some 9 }

/-- Sample job fixture: a failed job with an error message. -/
def exFailedJob : TranscriptionJob :=
  { id := 3, videoId := 42, status := JobStatus.failed,
    format := TranscriptFormat.txt, outputFilePath := some "out.txt",
    transcriptContent := none, deepgramResponse := none,
    errorMessage := some "boom", progressPercentage := 30,
    startedAt := some 3, completedAt := some 7 }

end YtTranscribe

namespace YtTranscribe

/-- Environment of external outcomes for one run of
`TranscriptionService.process_transcription_job`: the results of the
yt-dlp download, the ffmpeg audio extraction, the Deepgram transcription
(transcript text and serialized raw response), the transcript file write,
a file-existence oracle for `Path(...).exists()`, and the two
`datetime.utcnow()` reads (at start and at completion/failure). An
`Except.error` value is the message of the exception that call raised. -/
structure PipelineEnv where
  fileExists : String → Bool
  download : Except String String
  extract : Except String String
  transcribe : Except String (String × String)
  save : Except String Unit
  tStart : Nat
  tEnd : Nat

/-- The truth value of `not path or not Path(path).exists()` guarding the
download and extraction steps. -/
def needsFile (env : PipelineEnv) : Option String → Bool
  | none => true
  | some p => !env.fileExists p

/-- Result of one run of `process_transcription_job`: the final job and
video records, the message of the re-raised exception (if any), and the
job status at each `db.commit()` in order. -/
structure PipelineRun where
  job : TranscriptionJob
  video : Video
  raised : Option String
  commits : List JobStatus
deriving Repr

/-- The `except` block of `process_transcription_job`: set status to
failed, record the error message, stamp `completed_at`, commit, re-raise. -/
def failRun (env : PipelineEnv) (e : String) (j : TranscriptionJob)
    (v : Video) (tr : List JobStatus) : PipelineRun :=
  { job := { j with status := JobStatus.failed, errorMessage := some e,
                    completedAt := some env.tEnd }
    video := v
    raised := some e
    commits := tr ++ [JobStatus.failed] }

/-- `TranscriptionService.process_transcription_job`
(transcription_service.py lines 31-89), with external calls drawn from
`env` and each `db.commit()` recorded in the trace. -/
def process_transcription_job (env : PipelineEnv) (job0 : TranscriptionJob)
    (video0 : Video) : PipelineRun :=
  -- job.status = DOWNLOADING; job.started_at = utcnow; progress 10; commit
  let j1 := { job0 with status := JobStatus.downloading,
                        startedAt := some env.tStart,
                        progressPercentage := 10 }
  let tr1 := [JobStatus.downloading]
  -- download video if not already downloaded (commit on download)
  let dlStep : Except String (Video × List JobStatus) :=
    if needsFile env video0.videoFilePath then
      match env.download with
      | Except.ok p =>
          Except.ok ({ video0 with videoFilePath := some p },
                     tr1 ++ [JobStatus.downloading])
      | Except.error e => Except.error e
    else Except.ok (video0, tr1)
  match dlStep with
  | Except.error e => failRun env e j1 video0 tr1
  | Except.ok (v1, tr2) =>
    -- progress 30; commit
    let j2 := { j1 with progressPercentage := 30 }
    let tr3 := tr2 ++ [JobStatus.downloading]
    -- extract audio if not already extracted (commit on extraction)
    let exStep : Except String (Video × List JobStatus) :=
      if needsFile env v1.audioFilePath then
        match env.extract with
        | Except.ok p =>
            Except.ok ({ v1 with audioFilePath := some p },
                       tr3 ++ [JobStatus.downloading])
        | Except.error e => Except.error e
      else Except.ok (v1, tr3)
    match exStep with
    | Except.error e => failRun env e j2 v1 tr3
    | Except.ok (v2, tr4) =>
      -- job.status = PROCESSING; progress 50; commit
      let j3 := { j2 with status := JobStatus.processing,
                          progressPercentage := 50 }
      let tr5 := tr4 ++ [JobStatus.processing]
      -- transcribe audio
      match env.transcribe with
      | Except.error e => failRun env e j3 v2 tr5
      | Except.ok (transcript, raw) =>
        -- store results; progress 90 (no commit until completion)
        let j4 := { j3 with transcriptContent := some transcript,
                            deepgramResponse := some raw,
                            progressPercentage := 90 }
        -- save transcript to file if requested
        let saveStep : Except String Unit :=
          match j4.outputFilePath with
          | some _ => env.save
          | none => Except.ok ()
        match saveStep with
        | Except.error e => failRun env e j4 v2 tr5
        | Except.ok _ =>
          -- job.status = COMPLETED; completed_at; progress 100; commit
          { job := { j4 with status := JobStatus.completed,
                             completedAt := some env.tEnd,
                             progressPercentage := 100 }
            video := v2
            raised := none
            commits := tr5 ++ [JobStatus.completed] }

/-- `background_transcribe` (routes/transcription.py lines 87-128): runs
the pipeline in its own session and swallows the re-raised exception
(logging only), so the host task returns normally in every case. -/
def background_transcribe (env : PipelineEnv) (job : TranscriptionJob)
    (video : Video) : TranscriptionJob :=
  (process_transcription_job env job video).job

/-- Sample video fixture with no cached files. -/
def exVideo : Video :=
  { id := 42, youtubeId := "dQw4w9WgXcQ", channelId := some 7,
    url := "https://www.youtube.com/watch?v=dQw4w9WgXcQ",
    videoFilePath := none, audioFilePath := none }

/-- Sample environment in which every external call succeeds. -/
def exEnvOk : PipelineEnv :=
  { fileExists := fun _ => false
    download := Except.ok "/tmp/videos/dQw4w9WgXcQ.mp4"
    extract := Except.ok "/tmp/dQw4w9WgXcQ.wav"
    transcribe := Except.ok ("hello world", "raw json")
    save := Except.ok ()
    tStart := 3
    tEnd := 9 }

/-- Sample environment in which the Deepgram call raises. -/
def exEnvTranscribeFails : PipelineEnv :=
  { exEnvOk with transcribe := Except.error "deepgram exploded" }

/-- C4: for a failed or cancelled job, retry resets status to pending and
clears error_message, started_at, completed_at, transcript_content (and the
raw provider response) and sets progress to 0, leaving all other fields as
they were; for a job in any other status, retry is rejected with a 400
client error and the job record is unchanged (no updated job is produced). -/
theorem C4_retry_resets_or_rejects :
    (∀ job : TranscriptionJob,
      job.status = JobStatus.failed ∨ job.status = JobStatus.cancelled →
      retry_transcription_job job = Except.ok { job with
        status := JobStatus.pending, errorMessage := none,
        progressPercentage := 0, startedAt := none, completedAt := none,
        transcriptContent := none, deepgramResponse := none }) ∧
    (∀ job : TranscriptionJob,
      job.status ≠ JobStatus.failed → job.status ≠ JobStatus.cancelled →
      ∃ err : HttpErrorResp,
        retry_transcription_job job = Except.error err ∧ err.statusCode = 400) := by
  constructor
  · intro job h
    unfold retry_transcription_job
    rcases h with h | h <;> simp [h]
  · intro job h1 h2
    exact ⟨⟨400, "Cannot retry job with status"⟩, by
      unfold retry_transcription_job
      simp [h1, h2], rfl⟩

/-- Witness for C4: retry of a concrete failed job resets it, retry of a
concrete completed job is rejected with a 400. -/
theorem C4_retry_witness :
    retry_transcription_job exFailedJob = Except.ok { exFailedJob with
      status := JobStatus.pending, errorMessage := none,
      progressPercentage := 0, startedAt := none, completedAt := none,
      transcriptContent := none, deepgramResponse := none } ∧
    (∃ err : HttpErrorResp,
      retry_transcription_job exCompletedJob = Except.error err ∧
        err.statusCode = 400) :=
  ⟨C4_retry_resets_or_rejects.1 exFailedJob (Or.inl (by decide)),
   C4_retry_resets_or_rejects.2 exCompletedJob (by decide) (by decide)⟩

/-- C5: cancel succeeds exactly on non-terminal jobs (pending, downloading,
processing), flipping status to cancelled (and stamping `completed_at`);
on a completed, failed or cancelled job it is rejected with a 400 error
and no updated job record is produced. -/
theorem C5_cancel_iff_nonterminal :
    (∀ (now : Nat) (job : TranscriptionJob),
      nonTerminal job.status = true →
      cancel_transcription_job now job =
        Except.ok { job with status := JobStatus.cancelled,
                             completedAt := some now }) ∧
    (∀ (now : Nat) (job : TranscriptionJob),
      nonTerminal job.status = false →
      ∃ err : HttpErrorResp,
        cancel_transcription_job now job = Except.error err ∧
          err.statusCode = 400) := by
  constructor
  · intro now job h
    unfold cancel_transcription_job
    cases hs : job.status <;> simp [nonTerminal, hs] at h ⊢
  · intro now job h
    refine ⟨⟨400, "Cannot cancel job with status"⟩, ?_, rfl⟩
    unfold cancel_transcription_job
    cases hs : job.status <;> simp [nonTerminal, hs] at h ⊢

/-- Witness for C5: cancelling a concrete pending job succeeds and flips it
to cancelled; cancelling a concrete completed job is rejected with a 400. -/
theorem C5_cancel_witness :
    cancel_transcription_job 7 exPendingJob =
      Except.ok { exPendingJob with status := JobStatus.cancelled,
                                    completedAt := some 7 } ∧
    (∃ err : HttpErrorResp,
      cancel_transcription_job 7 exCompletedJob = Except.error err ∧
        err.statusCode = 400) :=
  ⟨C5_cancel_iff_nonterminal.1 7 exPendingJob (by decide),
   C5_cancel_iff_nonterminal.2 7 exCompletedJob (by decide)⟩

/-- C1: when the download, extraction, transcription and (optional) file
write all succeed, a job started in pending ends the run in status
completed with progress 100, a stored transcript, and a stamped
completion time. -/
theorem C1_pipeline_success (env : PipelineEnv) (job0 : TranscriptionJob)
    (video0 : Video)
    (_hst : job0.status = JobStatus.pending)
    (hdl : ∃ p, env.download = Except.ok p)
    (hex : ∃ p, env.extract = Except.ok p)
    (htr : ∃ t r, env.transcribe = Except.ok (t, r))
    (hsv : env.save = Except.ok ()) :
    (process_transcription_job env job0 video0).job.status =
      JobStatus.completed ∧
    (process_transcription_job env job0 video0).job.progressPercentage = 100 ∧
    (process_transcription_job env job0 video0).job.transcriptContent.isSome
      = true ∧
    (process_transcription_job env job0 video0).job.completedAt =
      some env.tEnd := by
  obtain ⟨pd, hd⟩ := hdl
  obtain ⟨pa, hx⟩ := hex
  obtain ⟨t, r, ht⟩ := htr
  unfold process_transcription_job
  cases hnd : needsFile env video0.videoFilePath <;>
    cases hna : needsFile env video0.audioFilePath <;>
      rcases hop : job0.outputFilePath with _ | f <;>
        simp [hd, hx, ht, hsv, hnd, hna, hop]

/-- Witness for C1: running the pipeline on a concrete pending job in an
all-success environment ends in completed / 100 / stored transcript. -/
theorem C1_pipeline_success_witness :
    (process_transcription_job exEnvOk exPendingJob exVideo).job.status =
      JobStatus.completed ∧
    (process_transcription_job exEnvOk exPendingJob exVideo).job.progressPercentage
      = 100 ∧
    (process_transcription_job exEnvOk exPendingJob exVideo).job.transcriptContent.isSome
      = true ∧
    (process_transcription_job exEnvOk exPendingJob exVideo).job.completedAt =
      some exEnvOk.tEnd :=
  C1_pipeline_success exEnvOk exPendingJob exVideo rfl
    ⟨"/tmp/videos/dQw4w9WgXcQ.mp4", rfl⟩ ⟨"/tmp/dQw4w9WgXcQ.wav", rfl⟩
    ⟨"hello world", "raw json", rfl⟩ rfl

/-- C2: if any stage of the pipeline raises, the run ends with the job in
status failed carrying the raised message as `error_message` and a stamped
`completed_at`; the exception is swallowed at the `background_transcribe`
boundary, which returns the failed job normally (it is a total function,
and it does not re-run the pipeline, so the job is not retried). -/
theorem C2_failure_marks_job_failed (env : PipelineEnv)
    (job0 : TranscriptionJob) (video0 : Video) (e : String)
    (h : (process_transcription_job env job0 video0).raised = some e) :
    background_transcribe env job0 video0 =
      (process_transcription_job env job0 video0).job ∧
    (process_transcription_job env job0 video0).job.status =
      JobStatus.failed ∧
    (process_transcription_job env job0 video0).job.errorMessage = some e ∧
    (process_transcription_job env job0 video0).job.completedAt =
      some env.tEnd := by
  refine ⟨rfl, ?_⟩
  unfold process_transcription_job failRun at h ⊢
  cases hnd : needsFile env video0.videoFilePath <;>
    rcases hdl : env.download with ed | pd <;>
    cases hna : needsFile env video0.audioFilePath <;>
    rcases hex : env.extract with ex | pa <;>
    rcases htr : env.transcribe with et | ⟨t, r⟩ <;>
    rcases hop : job0.outputFilePath with _ | f <;>
    rcases hsv : env.save with es | u <;>
    simp_all

/-- Witness for C2: a concrete run in which the Deepgram call raises ends
with the job failed, the message stored, and the completion stamped. -/
theorem C2_failure_marks_job_failed_witness :
    background_transcribe exEnvTranscribeFails exPendingJob exVideo =
      (process_transcription_job exEnvTranscribeFails exPendingJob exVideo).job ∧
    (process_transcription_job exEnvTranscribeFails exPendingJob exVideo).job.status
      = JobStatus.failed ∧
    (process_transcription_job exEnvTranscribeFails exPendingJob exVideo).job.errorMessage
      = some "deepgram exploded" ∧
    (process_transcription_job exEnvTranscribeFails exPendingJob exVideo).job.completedAt
      = some exEnvTranscribeFails.tEnd :=
  C2_failure_marks_job_failed exEnvTranscribeFails exPendingJob exVideo
    "deepgram exploded" rfl

/-- C10: the failure transition only touches `status`, `error_message` and
`completed_at`: at whichever stage the exception is raised, the final job
record is exactly the in-memory job at that point with those three fields
overwritten. In particular progress keeps the value of the last completed
stage (10 / 30 / 50 / 90, never reset to 0) and a transcript stored before
the exception (save-file stage) is kept. -/
theorem C10_failure_frame :
    (∀ (env : PipelineEnv) (j : TranscriptionJob) (v : Video) (e : String),
      needsFile env v.videoFilePath = true → env.download = Except.error e →
      (process_transcription_job env j v).job =
        { j with status := JobStatus.failed, startedAt := some env.tStart,
                 progressPercentage := 10, errorMessage := some e,
                 completedAt := some env.tEnd }) ∧
    (∀ (env : PipelineEnv) (j : TranscriptionJob) (v : Video) (e : String),
      (needsFile env v.videoFilePath = true →
        ∃ p, env.download = Except.ok p) →
      needsFile env v.audioFilePath = true → env.extract = Except.error e →
      (process_transcription_job env j v).job =
        { j with status := JobStatus.failed, startedAt := some env.tStart,
                 progressPercentage := 30, errorMessage := some e,
                 completedAt := some env.tEnd }) ∧
    (∀ (env : PipelineEnv) (j : TranscriptionJob) (v : Video) (e : String),
      (needsFile env v.videoFilePath = true →
        ∃ p, env.download = Except.ok p) →
      (needsFile env v.audioFilePath = true →
        ∃ p, env.extract = Except.ok p) →
      env.transcribe = Except.error e →
      (process_transcription_job env j v).job =
        { j with status := JobStatus.failed, startedAt := some env.tStart,
                 progressPercentage := 50, errorMessage := some e,
                 completedAt := some env.tEnd }) ∧
    (∀ (env : PipelineEnv) (j : TranscriptionJob) (v : Video)
        (e t r f : String),
      (needsFile env v.videoFilePath = true →
        ∃ p, env.download = Except.ok p) →
      (needsFile env v.audioFilePath = true →
        ∃ p, env.extract = Except.ok p) →
      env.transcribe = Except.ok (t, r) → j.outputFilePath = some f →
      env.save = Except.error e →
      (process_transcription_job env j v).job =
        { j with status := JobStatus.failed, startedAt := some env.tStart,
                 progressPercentage := 90, transcriptContent := some t,
                 deepgramResponse := some r, errorMessage := some e,
                 completedAt := some env.tEnd }) := by
  refine ⟨?_, ?_, ?_, ?_⟩
  · intro env j v e hnd hdl
    unfold process_transcription_job
    simp [hnd, hdl, failRun]
  · intro env j v e hdl hna hex
    unfold process_transcription_job
    cases hnd : needsFile env v.videoFilePath
    · simp [hnd, hna, hex, failRun]
    · obtain ⟨p, hp⟩ := hdl hnd
      simp [hnd, hp, hna, hex, failRun]
  · intro env j v e hdl hex htr
    unfold process_transcription_job
    cases hnd : needsFile env v.videoFilePath
    · cases hna : needsFile env v.audioFilePath
      · simp [hnd, hna, htr, failRun]
      · obtain ⟨q, hq⟩ := hex hna
        simp [hnd, hna, hq, htr, failRun]
    · obtain ⟨p, hp⟩ := hdl hnd
      cases hna : needsFile env v.audioFilePath
      · simp [hnd, hp, hna, htr, failRun]
      · obtain ⟨q, hq⟩ := hex hna
        simp [hnd, hp, hna, hq, htr, failRun]
  · intro env j v e t r f hdl hex htr hop hsv
    unfold process_transcription_job
    cases hnd : needsFile env v.videoFilePath
    · cases hna : needsFile env v.audioFilePath
      · simp [hnd, hna, htr, hop, hsv, failRun]
      · obtain ⟨q, hq⟩ := hex hna
        simp [hnd, hna, hq, htr, hop, hsv, failRun]
    · obtain ⟨p, hp⟩ := hdl hnd
      cases hna : needsFile env v.audioFilePath
      · simp [hnd, hp, hna, htr, hop, hsv, failRun]
      · obtain ⟨q, hq⟩ := hex hna
        simp [hnd, hp, hna, hq, htr, hop, hsv, failRun]

/-- Sample pending job that requests a transcript file. -/
def exPendingJobOut : TranscriptionJob :=
  { exPendingJob with outputFilePath := some "dQw4w9WgXcQ_notes.txt" }

/-- Sample environment in which only the transcript file write raises. -/
def exEnvSaveFails : PipelineEnv :=
  { exEnvOk with save := Except.error "disk full" }

/-- Witness for C10: a concrete run failing at the file-write stage keeps
progress 90 and the stored transcript, changing only status,
error_message and completed_at. -/
theorem C10_failure_frame_witness :
    (process_transcription_job exEnvSaveFails exPendingJobOut exVideo).job =
      { exPendingJobOut with
        status := JobStatus.failed,
        startedAt := some exEnvSaveFails.tStart, progressPercentage := 90,
        transcriptContent := some "hello world",
        deepgramResponse := some "raw json",
        errorMessage := some "disk full",
        completedAt := some exEnvSaveFails.tEnd } :=
  C10_failure_frame.2.2.2 exEnvSaveFails exPendingJobOut exVideo
    "disk full" "hello world" "raw json" "dQw4w9WgXcQ_notes.txt"
    (fun _ => ⟨"/tmp/videos/dQw4w9WgXcQ.mp4", rfl⟩)
    (fun _ => ⟨"/tmp/dQw4w9WgXcQ.wav", rfl⟩) rfl rfl rfl

/-- The allowed status-step relation from the spec invariant: forward
through pending → downloading → processing → completed, to failed or
cancelled from any non-terminal state, and failed/cancelled → pending
via retry. -/
def allowedStep : JobStatus → JobStatus → Bool
  | JobStatus.pending, JobStatus.downloading => true
  | JobStatus.downloading, JobStatus.processing => true
  | JobStatus.processing, JobStatus.completed => true
  | s, JobStatus.failed => nonTerminal s
  | s, JobStatus.cancelled => nonTerminal s
  | JobStatus.failed, JobStatus.pending => true
  | JobStatus.cancelled, JobStatus.pending => true
  | _, _ => false

/-- The status changes observed at the database, starting from `s`:
consecutive pairs of distinct committed statuses. -/
def statusChanges : JobStatus → List JobStatus → List (JobStatus × JobStatus)
  | _, [] => []
  | s, t :: ts => if t = s then statusChanges s ts
                  else (s, t) :: statusChanges t ts

/-- C3 (amended): cancel and retry always produce allowed status steps,
and a pipeline run applied to a job that is still pending produces only
allowed status steps at its commits. (The run itself never checks the
current status, so the pending hypothesis is what the claim must be
weakened to; see the counterexample.) -/
theorem C3_allowed_transitions :
    (∀ (now : Nat) (job job' : TranscriptionJob),
      cancel_transcription_job now job = Except.ok job' →
      allowedStep job.status job'.status = true) ∧
    (∀ job job' : TranscriptionJob,
      retry_transcription_job job = Except.ok job' →
      allowedStep job.status job'.status = true) ∧
    (∀ (env : PipelineEnv) (job0 : TranscriptionJob) (video0 : Video),
      job0.status = JobStatus.pending →
      ∀ p ∈ statusChanges job0.status
          (process_transcription_job env job0 video0).commits,
        allowedStep p.1 p.2 = true) := by
  refine ⟨?_, ?_, ?_⟩
  · intro now job job' h
    unfold cancel_transcription_job at h
    cases hs : job.status <;>
      simp [hs] at h <;> simp [← h, allowedStep, nonTerminal]
  · intro job job' h
    unfold retry_transcription_job at h
    cases hs : job.status <;>
      simp [hs] at h <;> simp [← h, allowedStep, nonTerminal]
  · intro env job0 video0 hst p hp
    unfold process_transcription_job failRun at hp
    rw [hst] at hp
    revert hp
    cases hnd : needsFile env video0.videoFilePath <;>
      rcases hdl : env.download with ed | pd <;>
      cases hna : needsFile env video0.audioFilePath <;>
      rcases hex : env.extract with ex | pa <;>
      rcases htr : env.transcribe with et | ⟨t, r⟩ <;>
      rcases hop : job0.outputFilePath with _ | f <;>
      rcases hsv : env.save with es | u <;>
      simp [hnd, hdl, hna, hex, htr, hop, hsv, statusChanges, allowedStep,
            nonTerminal] <;>
      rintro (rfl | rfl | rfl | rfl) <;> rfl

/-- Witness for C3 (amended): cancelling a concrete downloading job,
retrying a concrete failed job, and a concrete pending pipeline run all
make only allowed status steps. -/
theorem C3_allowed_transitions_witness :
    allowedStep JobStatus.downloading JobStatus.cancelled = true ∧
    allowedStep JobStatus.failed JobStatus.pending = true ∧
    ∀ p ∈ statusChanges exPendingJob.status
        (process_transcription_job exEnvOk exPendingJob exVideo).commits,
      allowedStep p.1 p.2 = true := by
  refine ⟨?_, ?_, ?_⟩
  · exact C3_allowed_transitions.1 4
      { exPendingJob with status := JobStatus.downloading }
      { exPendingJob with status := JobStatus.cancelled,
                          completedAt := some 4 } rfl
  · exact C3_allowed_transitions.2.1 exFailedJob
      { exFailedJob with
        status := JobStatus.pending, errorMessage := none,
        progressPercentage := 0, startedAt := none, completedAt := none,
        transcriptContent := none, deepgramResponse := none } rfl
  · exact C3_allowed_transitions.2.2 exEnvOk exPendingJob exVideo rfl

/-- A pending job that has just been cancelled (as the cancel endpoint
leaves it) while its background task is still queued. -/
def exCancelledJob : TranscriptionJob :=
  { exPendingJob with status := JobStatus.cancelled, completedAt := some 5 }

/-- Counterexample to C3 as stated: the pipeline never re-checks the
stored status, so for a job cancelled between creation and the start of
its queued background task the run's first committed status change is
cancelled → downloading, which the allowed step relation forbids
("no other transition occurs" is violated, and the job is also later
moved to completed, leaving cancelled without a cancel/retry operation). -/
theorem C3_counterexample :
    cancel_transcription_job 5 exPendingJob = Except.ok exCancelledJob ∧
    (statusChanges exCancelledJob.status
        (process_transcription_job exEnvOk exCancelledJob exVideo).commits).head?
      = some (JobStatus.cancelled, JobStatus.downloading) ∧
    allowedStep JobStatus.cancelled JobStatus.downloading = false := by
  refine ⟨?_, ?_, rfl⟩
  · rfl
  · rfl

/-- The `Channel` record (columns relevant to the claims). -/
structure Channel where
  id : Nat
  youtubeId : String
  url : String
deriving DecidableEq, Repr

/-- The relational state touched by `ChannelService.delete_channel`. -/
structure Db where
  channels : List Channel
  videos : List Video
  jobs : List TranscriptionJob
deriving Repr

/-- One row deletion issued by `delete_channel`, in issue order. -/
inductive DeleteEvent where
  | job (id : Nat)
  | video (id : Nat)
  | channel (id : Nat)
deriving DecidableEq, Repr

/-- Whether a transcription job row joins (via its video) to the channel
with id `chId`: the `select(TranscriptionJob).join(Video).where(
Video.channel_id == channel.id)` condition. -/
def jobInChannel (videos : List Video) (chId : Nat) (j : TranscriptionJob) :
    Bool :=
  videos.any fun v => v.id == j.videoId && v.channelId == some chId

/-- `ChannelService.delete_channel` (channel_service.py lines 138-165):
delete every transcription job of the channel's videos, then every video
of the channel, then the channel row itself, and commit. Returns the
resulting state and the ordered list of row deletions issued. -/
def delete_channel (db : Db) (channel : Channel) : Db × List DeleteEvent :=
  let jobsToDelete := db.jobs.filter (jobInChannel db.videos channel.id)
  let videosToDelete := db.videos.filter fun v => v.channelId == some channel.id
  let db' : Db :=
    { channels := db.channels.filter fun c => !(c.id == channel.id)
      videos := db.videos.filter fun v => !(v.channelId == some channel.id)
      jobs := db.jobs.filter fun j => !(jobInChannel db.videos channel.id j) }
  let events :=
    jobsToDelete.map (fun j => DeleteEvent.job j.id) ++
    videosToDelete.map (fun v => DeleteEvent.video v.id) ++
    [DeleteEvent.channel channel.id]
  (db', events)

/-- Rank of a deletion event: jobs are issued first, then videos, then the
channel. -/
def eventRank : DeleteEvent → Nat
  | DeleteEvent.job _ => 0
  | DeleteEvent.video _ => 1
  | DeleteEvent.channel _ => 2

/-- Checks that a deletion sequence never goes back to an earlier phase
(all job deletes, then all video deletes, then the channel delete). -/
def eventsPhased : List DeleteEvent → Bool
  | [] => true
  | [_] => true
  | a :: b :: r => eventRank a ≤ eventRank b && eventsPhased (b :: r)

/-- A phase-constant block followed by a phased tail of later-or-equal
phases is phased. -/
theorem eventsPhased_append {k : Nat} {xs ys : List DeleteEvent}
    (hxs : ∀ a ∈ xs, eventRank a = k)
    (hys : ∀ b ∈ ys, k ≤ eventRank b)
    (h : eventsPhased ys = true) : eventsPhased (xs ++ ys) = true := by
  induction xs with
  | nil => simpa using h
  | cons a xs ih =>
    have ha : eventRank a = k := hxs a (List.mem_cons_self a xs)
    have htail : eventsPhased (xs ++ ys) = true :=
      ih (fun b hb => hxs b (List.mem_cons_of_mem a hb))
    cases xs with
    | nil =>
      cases ys with
      | nil => simp [eventsPhased]
      | cons y ys' =>
        have hy : k ≤ eventRank y := hys y (List.mem_cons_self y ys')
        simpa [eventsPhased, ha, hy] using h
    | cons a' xs' =>
      have ha' : eventRank a' = k :=
        hxs a' (List.mem_cons_of_mem a (List.mem_cons_self a' xs'))
      simp only [List.cons_append, eventsPhased] at htail ⊢
      simp [ha, ha', htail]

/-- C9: after `delete_channel`, no video of the channel remains, no job of
any of those videos remains, and the channel row is gone; and the
deletion is issued as explicit row deletes in three phases — the jobs,
then the videos, then the channel last. -/
theorem C9_delete_channel_cascades (db : Db) (channel : Channel) :
    ((delete_channel db channel).1.videos.all
      fun v => !(v.channelId == some channel.id)) = true ∧
    ((delete_channel db channel).1.jobs.all
      fun j => !(jobInChannel db.videos channel.id j)) = true ∧
    ((delete_channel db channel).1.channels.all
      fun c => !(c.id == channel.id)) = true ∧
    eventsPhased (delete_channel db channel).2 = true ∧
    (delete_channel db channel).2.getLast? =
      some (DeleteEvent.channel channel.id) := by
  refine ⟨?_, ?_, ?_, ?_, ?_⟩
  · simp only [delete_channel, List.all_eq_true]
    intro v hv
    exact (List.mem_filter.mp hv).2
  · simp only [delete_channel, List.all_eq_true]
    intro j hj
    exact (List.mem_filter.mp hj).2
  · simp only [delete_channel, List.all_eq_true]
    intro c hc
    exact (List.mem_filter.mp hc).2
  · simp only [delete_channel, List.append_assoc]
    refine eventsPhased_append (k := 0) ?_ ?_ ?_
    · intro a ha
      obtain ⟨j, _, rfl⟩ := List.mem_map.mp ha
      rfl
    · intro b hb
      exact Nat.zero_le _
    · refine eventsPhased_append (k := 1) ?_ ?_ ?_
      · intro a ha
        obtain ⟨v, _, rfl⟩ := List.mem_map.mp ha
        rfl
      · intro b hb
        rcases List.mem_singleton.mp hb with rfl
        exact Nat.le_succ 1
      · rfl
  · simp only [delete_channel, ← List.append_assoc]
    exact List.getLast?_concat _

/-- One entry of `error.error_details`: `detail.get('reason', '')` and
`detail.get('message', '')`, missing keys modelled as the empty string. -/
structure ErrorDetail where
  reason : String
  message : String
deriving DecidableEq, Repr

/-- The parts of a `googleapiclient` `HttpError` that
`_handle_http_error` reads: `error.error_details` (empty when absent),
`error.resp.status` (none when absent), and `str(error)`. -/
structure HttpErrorInfo where
  errorDetails : List ErrorDetail
  status : Option Nat
  text : String
deriving DecidableEq, Repr

/-- The four exception classes raised by `_handle_http_error`, each
carrying its message. -/
inductive YouTubeAPIErr where
  | quotaExceeded (msg : String)
  | accessDenied (msg : String)
  | notFound (msg : String)
  | generic (msg : String)
deriving DecidableEq, Repr

/-- Reason strings mapped to quota exhaustion. -/
def quotaReasons : List String :=
  ["quotaexceeded", "dailylimitexceeded", "usageratelimitexceeded"]

/-- Reason strings mapped to denied access. -/
def accessReasons : List String := ["forbidden", "accessnotconfigured"]

/-- Reason strings mapped to a missing resource. -/
def notFoundReasons : List String :=
  ["notfound", "videonotfound", "channelnotfound"]

/-- Whether `needle` matches at the head of `haystack`. -/
def leadMatch : List Char → List Char → Bool
  | [], _ => true
  | _ :: _, [] => false
  | a :: as, b :: bs => a == b && leadMatch as bs

/-- Python's `needle in haystack` on strings, as lists of characters. -/
def hasSub (needle : List Char) : List Char → Bool
  | [] => leadMatch needle []
  | c :: rest => leadMatch needle (c :: rest) || hasSub needle rest

/-- The `for detail in error_details` loop of `_handle_http_error`: the
first detail whose lowered reason is recognized determines the raised
class; unrecognized reasons fall through to the next detail. -/
def handleErrorDetails (operation : String) :
    List ErrorDetail → Option YouTubeAPIErr
  | [] => none
  | d :: rest =>
    let reason := d.reason.toLower
    if quotaReasons.contains reason then
      some (YouTubeAPIErr.quotaExceeded
        ("YouTube API quota exceeded during " ++ operation ++ ": " ++ d.message))
    else if accessReasons.contains reason then
      some (YouTubeAPIErr.accessDenied
        ("YouTube API access denied during " ++ operation ++ ": " ++ d.message))
    else if notFoundReasons.contains reason then
      some (YouTubeAPIErr.notFound
        ("YouTube resource not found during " ++ operation ++ ": " ++ d.message))
    else handleErrorDetails operation rest

/-- `YouTubeAPIService._handle_http_error` (youtube_api.py lines 55-88):
classify by reason strings first, then fall back to the HTTP status
(403 with a quota mention → quota, other 403 → access denied,
404 → not found), otherwise raise the generic error. The function never
returns normally; its result is the exception raised. -/
def handle_http_error (error : HttpErrorInfo) (operation : String) :
    YouTubeAPIErr :=
  match handleErrorDetails operation error.errorDetails with
  | some e => e
  | none =>
    if error.status = some 403 then
      if hasSub "quota".data (String.toLower error.text).data then
        YouTubeAPIErr.quotaExceeded
          ("YouTube API quota exceeded during " ++ operation)
      else
        YouTubeAPIErr.accessDenied
          ("YouTube API access denied during " ++ operation)
    else if error.status = some 404 then
      YouTubeAPIErr.notFound
        ("YouTube resource not found during " ++ operation)
    else
      YouTubeAPIErr.generic
        ("YouTube API error during " ++ operation ++ ": " ++ error.text)

/-- The four error classes, without messages. -/
inductive ErrClass where
  | quotaExceeded
  | accessDenied
  | notFound
  | generic
deriving DecidableEq, Repr

/-- The class of a raised error. -/
def classOf : YouTubeAPIErr → ErrClass
  | YouTubeAPIErr.quotaExceeded _ => ErrClass.quotaExceeded
  | YouTubeAPIErr.accessDenied _ => ErrClass.accessDenied
  | YouTubeAPIErr.notFound _ => ErrClass.notFound
  | YouTubeAPIErr.generic _ => ErrClass.generic

/-- The claim's classification of a single lowered reason string. -/
def reasonClass (reason : String) : Option ErrClass :=
  if quotaReasons.contains reason then some ErrClass.quotaExceeded
  else if accessReasons.contains reason then some ErrClass.accessDenied
  else if notFoundReasons.contains reason then some ErrClass.notFound
  else none

/-- The classification exactly as the claim words it: first by the first
recognized (lowered) reason string among the error details, then by HTTP
status — 403 with a quota message → quota exceeded, other 403 → access
denied, 404 → not found — and otherwise the generic provider error. -/
def claimClassification (error : HttpErrorInfo) : ErrClass :=
  match error.errorDetails.findSome?
      (fun d => reasonClass d.reason.toLower) with
  | some k => k
  | none =>
    if error.status = some 403 then
      if hasSub "quota".data (String.toLower error.text).data then
        ErrClass.quotaExceeded
      else ErrClass.accessDenied
    else if error.status = some 404 then ErrClass.notFound
    else ErrClass.generic

/-- C8: `_handle_http_error` always raises exactly one of the four error
classes (it is total into `YouTubeAPIErr`, never returning normally), and
the class raised is precisely the claim's classification: first matching
reason string wins, then the 403/404 status fallback, else generic. -/
theorem C8_http_error_taxonomy (error : HttpErrorInfo) (operation : String) :
    classOf (handle_http_error error operation) =
      claimClassification error := by
  have h : ∀ ds : List ErrorDetail,
      Option.map classOf (handleErrorDetails operation ds) =
        ds.findSome? (fun d => reasonClass d.reason.toLower) := by
    intro ds
    induction ds with
    | nil => rfl
    | cons d rest ih =>
      rw [handleErrorDetails, List.findSome?_cons]
      by_cases h1 : d.reason.toLower ∈ quotaReasons
      · have hr : reasonClass d.reason.toLower = some ErrClass.quotaExceeded := by
          simp [reasonClass, h1]
        simp [h1, hr, classOf]
      · by_cases h2 : d.reason.toLower ∈ accessReasons
        · have hr : reasonClass d.reason.toLower = some ErrClass.accessDenied := by
            simp [reasonClass, h1, h2]
          simp [h1, h2, hr, classOf]
        · by_cases h3 : d.reason.toLower ∈ notFoundReasons
          · have hr : reasonClass d.reason.toLower = some ErrClass.notFound := by
              simp [reasonClass, h1, h2, h3]
            simp [h1, h2, h3, hr, classOf]
          · have hr : reasonClass d.reason.toLower = none := by
              simp [reasonClass, h1, h2, h3]
            simp [h1, h2, h3, hr, ih]
  unfold handle_http_error claimClassification
  rw [← h]
  cases hd : handleErrorDetails operation error.errorDetails
  · simp only [Option.map_none']
    split_ifs <;> rfl
  · simp [classOf]

/-- Python `int(...)` on a nonempty string of decimal digits. -/
def natOfDigits (ds : List Char) : Nat :=
  ds.foldl (fun a c => 10 * a + (c.toNat - 48)) 0

/-- One optional regex group `(?:(\d+)X)?` of the duration pattern,
matched greedily at the head of `s`: a nonempty digit run immediately
followed by the marker consumes both and captures the number; otherwise
the group matches empty and `s` is left in place. (Backtracking inside
`\d+` can never help, since the marker is not a digit.) -/
def tryField (marker : Char) (s : List Char) : Option Nat × List Char :=
  match s.takeWhile Char.isDigit, s.drop (s.takeWhile Char.isDigit).length with
  | [], _ => (none, s)
  | ds@(_ :: _), c :: r =>
      if c = marker then (some (natOfDigits ds), r) else (none, s)
  | _ :: _, [] => (none, s)

/-- `VideoService.parse_duration_string` (video_service.py lines 42-73 and
its identical copy in domains/videos/services.py lines 18-49):
`re.match` of `PT(?:(\d+)H)?(?:(\d+)M)?(?:(\d+)S)?` succeeds exactly when
the string starts with `PT` (every group is optional) and consumes the
longest valid prefix; absent groups contribute nothing to the sum. An
empty input is rejected by the leading `if not duration` check. -/
def parse_duration_string (duration : String) : Option Nat :=
  if duration.data = [] then none
  else
    match duration.data with
    | c1 :: c2 :: rest =>
        if c1 = 'P' ∧ c2 = 'T' then
          let (h, r1) := tryField 'H' rest
          let (m, r2) := tryField 'M' r1
          let (s, _) := tryField 'S' r2
          some (h.getD 0 * 3600 + m.getD 0 * 60 + s.getD 0)
        else none
    | _ => none

/-- A duration string `PT#H#M#S` with the given digit fields present or
absent per the three flags. -/
def mkDuration (useH useM useS : Bool) (hd md sd : List Char) : String :=
  ⟨'P' :: 'T' ::
    ((if useH then hd ++ ['H'] else []) ++
     (if useM then md ++ ['M'] else []) ++
     (if useS then sd ++ ['S'] else []))⟩

/-- Whether a string is exactly of the claimed form `PT#H#M#S` (any
combination of the three fields, nothing else before or after). -/
def isCanonicalDuration (s : String) : Bool :=
  match s.data with
  | 'P' :: 'T' :: rest =>
      let (_, r1) := tryField 'H' rest
      let (_, r2) := tryField 'M' r1
      let (_, r3) := tryField 'S' r2
      r3 = []
  | _ => false

/-- A block of characters satisfying `p` followed by a failing character
is exactly what `takeWhile` keeps, and `drop` then resumes at the failing
character. -/
theorem takeWhile_block (p : Char → Bool) (xs : List Char) (y : Char)
    (ys : List Char) (hxs : ∀ x ∈ xs, p x = true) (hy : p y = false) :
    (xs ++ y :: ys).takeWhile p = xs ∧
      (xs ++ y :: ys).drop xs.length = y :: ys := by
  constructor
  · induction xs with
    | nil => simp [List.takeWhile_cons, hy]
    | cons a as ih =>
      have ha := hxs a (List.mem_cons_self a as)
      simp only [List.cons_append, List.takeWhile_cons, ha, if_pos]
      simp [ih (fun x hx => hxs x (List.mem_cons_of_mem a hx))]
  · simp [List.drop_left xs (y :: ys)]

/-- `tryField` consumes a present field: digits then the marker. -/
theorem tryField_match (marker : Char) (ds rest : List Char) (hne : ds ≠ [])
    (hdig : ∀ c ∈ ds, Char.isDigit c = true)
    (hm : Char.isDigit marker = false) :
    tryField marker (ds ++ marker :: rest) = (some (natOfDigits ds), rest) := by
  obtain ⟨htw, hdr⟩ := takeWhile_block Char.isDigit ds marker rest hdig hm
  unfold tryField
  rw [htw, hdr]
  rcases ds with _ | ⟨d, ds1⟩
  · exact absurd rfl hne
  · simp

/-- `tryField` leaves the input alone when the digit run is followed by a
different marker. -/
theorem tryField_skip (marker c : Char) (ds rest : List Char) (hne : ds ≠ [])
    (hdig : ∀ x ∈ ds, Char.isDigit x = true) (hc : Char.isDigit c = false)
    (hcm : c ≠ marker) :
    tryField marker (ds ++ c :: rest) = (none, ds ++ c :: rest) := by
  obtain ⟨htw, hdr⟩ := takeWhile_block Char.isDigit ds c rest hdig hc
  unfold tryField
  rw [htw, hdr]
  rcases ds with _ | ⟨d, ds1⟩
  · exact absurd rfl hne
  · simp [hcm]

/-- `tryField` leaves the input alone when it does not start with a
digit. -/
theorem tryField_noDigit (marker : Char) (s : List Char)
    (h : s.takeWhile Char.isDigit = []) :
    tryField marker s = (none, s) := by
  unfold tryField
  rw [h]

/-- C6 (amended): a well-formed `PT#H#M#S` string with any combination of
fields parses to exactly hours*3600 + minutes*60 + seconds, including the
spec's example and the all-absent case `PT` parsing to 0; a string that
does not start with `PT` (including the empty string) is the only kind
that parses to None; a malformed string that does start with `PT` is NOT
rejected — the parser returns the value of the longest valid prefix
(e.g. `PTx` parses to 0). -/
theorem C6_duration_parsing :
    (∀ (useH useM useS : Bool) (hd md sd : List Char),
      (useH = true → hd ≠ [] ∧ ∀ c ∈ hd, Char.isDigit c = true) →
      (useM = true → md ≠ [] ∧ ∀ c ∈ md, Char.isDigit c = true) →
      (useS = true → sd ≠ [] ∧ ∀ c ∈ sd, Char.isDigit c = true) →
      parse_duration_string (mkDuration useH useM useS hd md sd) =
        some ((if useH then natOfDigits hd else 0) * 3600 +
              (if useM then natOfDigits md else 0) * 60 +
              (if useS then natOfDigits sd else 0))) ∧
    parse_duration_string "PT1H30M5S" = some 5405 ∧
    parse_duration_string "PT" = some 0 ∧
    (∀ s : String,
      parse_duration_string s = none ↔ s.data.take 2 ≠ ['P', 'T']) ∧
    parse_duration_string "PTx" = some 0 := by
  refine ⟨?_, by decide, by decide, ?_, by decide⟩
  · intro useH useM useS hd md sd hH hM hS
    cases useH <;> cases useM <;> cases useS
    · -- no fields: "PT"
      rfl
    · -- S only
      obtain ⟨hne3, hdig3⟩ := hS rfl
      have e1 := tryField_skip 'H' 'S' sd [] hne3 hdig3 (by decide) (by decide)
      have e2 := tryField_skip 'M' 'S' sd [] hne3 hdig3 (by decide) (by decide)
      have e3 := tryField_match 'S' sd [] hne3 hdig3 (by decide)
      simp [mkDuration, parse_duration_string, e1, e2, e3]
    · -- M only
      obtain ⟨hne2, hdig2⟩ := hM rfl
      have e1 := tryField_skip 'H' 'M' md [] hne2 hdig2 (by decide) (by decide)
      have e2 := tryField_match 'M' md [] hne2 hdig2 (by decide)
      have e3 := tryField_noDigit 'S' [] rfl
      simp [mkDuration, parse_duration_string, e1, e2, e3]
    · -- M and S
      obtain ⟨hne2, hdig2⟩ := hM rfl
      obtain ⟨hne3, hdig3⟩ := hS rfl
      have e1 := tryField_skip 'H' 'M' md (sd ++ ['S']) hne2 hdig2
        (by decide) (by decide)
      have e2 := tryField_match 'M' md (sd ++ ['S']) hne2 hdig2 (by decide)
      have e3 := tryField_match 'S' sd [] hne3 hdig3 (by decide)
      simp [mkDuration, parse_duration_string, e1, e2, e3]
    · -- H only
      obtain ⟨hne1, hdig1⟩ := hH rfl
      have e1 := tryField_match 'H' hd [] hne1 hdig1 (by decide)
      have e2 := tryField_noDigit 'M' [] rfl
      have e3 := tryField_noDigit 'S' [] rfl
      simp [mkDuration, parse_duration_string, e1, e2, e3]
    · -- H and S
      obtain ⟨hne1, hdig1⟩ := hH rfl
      obtain ⟨hne3, hdig3⟩ := hS rfl
      have e1 := tryField_match 'H' hd (sd ++ ['S']) hne1 hdig1 (by decide)
      have e2 := tryField_skip 'M' 'S' sd [] hne3 hdig3 (by decide) (by decide)
      have e3 := tryField_match 'S' sd [] hne3 hdig3 (by decide)
      simp [mkDuration, parse_duration_string, e1, e2, e3]
    · -- H and M
      obtain ⟨hne1, hdig1⟩ := hH rfl
      obtain ⟨hne2, hdig2⟩ := hM rfl
      have e1 := tryField_match 'H' hd (md ++ ['M']) hne1 hdig1 (by decide)
      have e2 := tryField_match 'M' md [] hne2 hdig2 (by decide)
      have e3 := tryField_noDigit 'S' [] rfl
      simp [mkDuration, parse_duration_string, e1, e2, e3]
    · -- H, M and S
      obtain ⟨hne1, hdig1⟩ := hH rfl
      obtain ⟨hne2, hdig2⟩ := hM rfl
      obtain ⟨hne3, hdig3⟩ := hS rfl
      have e1 := tryField_match 'H' hd (md ++ 'M' :: (sd ++ ['S'])) hne1 hdig1
        (by decide)
      have e2 := tryField_match 'M' md (sd ++ ['S']) hne2 hdig2 (by decide)
      have e3 := tryField_match 'S' sd [] hne3 hdig3 (by decide)
      simp [mkDuration, parse_duration_string, e1, e2, e3]
  · intro s
    rcases hs : s.data with _ | ⟨c1, rest1⟩
    · simp [parse_duration_string, hs]
    · rcases rest1 with _ | ⟨c2, rest⟩
      · simp [parse_duration_string, hs]
      · by_cases h12 : c1 = 'P' ∧ c2 = 'T'
        · obtain ⟨rfl, rfl⟩ := h12
          rcases h1 : tryField 'H' rest with ⟨hval, r1⟩
          rcases h2 : tryField 'M' r1 with ⟨mval, r2⟩
          rcases h3 : tryField 'S' r2 with ⟨sval, r3⟩
          simp [parse_duration_string, hs, h1, h2, h3]
        · simp [parse_duration_string, hs, h12]

/-- Witness for C6: the spec's own example, built as an explicit
all-three-fields well-formed string, parses to 5405 seconds. -/
theorem C6_duration_parsing_witness :
    parse_duration_string (mkDuration true true true ['1'] ['3', '0'] ['5'])
      = some 5405 :=
  (C6_duration_parsing.1 true true true ['1'] ['3', '0'] ['5']
    (fun _ => ⟨by decide, by decide⟩)
    (fun _ => ⟨by decide, by decide⟩)
    (fun _ => ⟨by decide, by decide⟩)).trans (by decide)

/-- Counterexample to C6 as stated: `PTx` is malformed (not of the form
`PT#H#M#S`), yet the parser returns 0 rather than the unparseable result
None, because `re.match` only anchors the pattern at the start and every
group is optional. -/
theorem C6_counterexample :
    isCanonicalDuration "PTx" = false ∧
      parse_duration_string "PTx" ≠ none := by
  refine ⟨by decide, by decide⟩

/-- The regex character class `[a-zA-Z0-9_-]` of the URL patterns. -/
def isIdentChar (c : Char) : Bool :=
  c.isAlpha || c.isDigit || c == '_' || c == '-'

/-- ASCII whitespace stripped by Python's `str.strip()`. -/
def isPySpace (c : Char) : Bool :=
  c == ' ' || c == '\t' || c == '\n' || c == '\r' || c == '\x0b' || c == '\x0c'

/-- Python's `url.strip()`. -/
def pyStrip (s : List Char) : List Char :=
  ((s.dropWhile isPySpace).reverse.dropWhile isPySpace).reverse

/-- The four URL shapes of `YouTubeUrlValidator.PATTERNS`, in the order
the dict iterates them. -/
inductive UrlKind where
  | username
  | channelId
  | cFormat
  | userFormat
deriving DecidableEq, Repr

/-- The literal part of each pattern after the scheme and optional
`www.`: `youtube\.com/@`, `youtube\.com/channel/`, `youtube\.com/c/`,
`youtube\.com/user/`. -/
def markerOf : UrlKind → List Char
  | UrlKind.username =>
      ['y','o','u','t','u','b','e','.','c','o','m','/','@']
  | UrlKind.channelId =>
      ['y','o','u','t','u','b','e','.','c','o','m','/','c','h','a','n','n','e','l','/']
  | UrlKind.cFormat =>
      ['y','o','u','t','u','b','e','.','c','o','m','/','c','/']
  | UrlKind.userFormat =>
      ['y','o','u','t','u','b','e','.','c','o','m','/','u','s','e','r','/']

/-- The `type` string the validator reports for each shape. -/
def kindTypeName : UrlKind → String
  | UrlKind.username => "username"
  | UrlKind.channelId => "channel_id"
  | UrlKind.cFormat => "c_format"
  | UrlKind.userFormat => "user_format"

/-- `^https?://`: the scheme literal at the head of the URL. (The greedy
optional `s` can never need backtracking, since `s` differs from `:`.) -/
def dropScheme : List Char → Option (List Char)
  | 'h' :: 't' :: 't' :: 'p' :: 's' :: ':' :: '/' :: '/' :: r => some r
  | 'h' :: 't' :: 't' :: 'p' :: ':' :: '/' :: '/' :: r => some r
  | _ => none

/-- `(?:www\.)?`: optionally consume a leading `www.`. (If the group
matches, dropping it can never hurt: no suffix both starts with `www.`
and with `youtube.com`.) -/
def dropWww : List Char → List Char
  | 'w' :: 'w' :: 'w' :: '.' :: r => r
  | s => s

/-- Consume an exact literal at the head of the input. -/
def dropLit : List Char → List Char → Option (List Char)
  | [], s => some s
  | _ :: _, [] => none
  | c :: cs, d :: ds => if c == d then dropLit cs ds else none

/-- `([a-zA-Z0-9_-]+)/?$`: a nonempty greedy identifier run, an optional
slash, then the end of the string — where Python's `$` also matches just
before a single final newline. (Backtracking inside the `+` can never
help: a shorter run leaves an identifier character where `/?$` must
match.) -/
def tailMatch (s : List Char) : Option (List Char) :=
  match s.takeWhile isIdentChar, s.drop (s.takeWhile isIdentChar).length with
  | [], _ => none
  | ident@(_ :: _), rest =>
      if rest = [] ∨ rest = ['\n'] ∨ rest = ['/'] ∨ rest = ['/', '\n'] then
        some ident
      else none

/-- `pattern.match(url)` for one of the four patterns: scheme, optional
`www.`, the pattern's literal, then the captured identifier. -/
def matchFormat (marker : List Char) (s : List Char) : Option (List Char) :=
  match dropScheme s with
  | none => none
  | some r1 =>
    match dropLit marker (dropWww r1) with
    | none => none
    | some r2 => tailMatch r2

/-- The dict returned by `YouTubeUrlValidator.validate_url`. -/
structure UrlValidation where
  type : String
  identifier : String
  originalUrl : String
deriving DecidableEq, Repr

/-- `YouTubeUrlValidator.validate_url` (channel_service.py lines 32-57):
strip the input, try the four patterns in dict order, return the first
match; raise `ValueError` (modelled as `Except.error`) when none
matches. -/
def validate_url (url : String) : Except String UrlValidation :=
  let u := pyStrip url.data
  match matchFormat (markerOf UrlKind.username) u with
  | some ident =>
      Except.ok ⟨"username", String.mk ident, String.mk u⟩
  | none =>
    match matchFormat (markerOf UrlKind.channelId) u with
    | some ident =>
        Except.ok ⟨"channel_id", String.mk ident, String.mk u⟩
    | none =>
      match matchFormat (markerOf UrlKind.cFormat) u with
      | some ident =>
          Except.ok ⟨"c_format", String.mk ident, String.mk u⟩
      | none =>
        match matchFormat (markerOf UrlKind.userFormat) u with
        | some ident =>
            Except.ok ⟨"user_format", String.mk ident, String.mk u⟩
        | none =>
            Except.error ("Unsupported YouTube URL format: " ++ String.mk u)

/-- `YouTubeUrlValidator.normalize_url` (channel_service.py lines 59-76):
validate, then rebuild the canonical URL for the detected type. -/
def normalize_url (url : String) : Except String String :=
  match validate_url url with
  | Except.error e => Except.error e
  | Except.ok v =>
      Except.ok
        (if v.type = "username" then
          "https://www.youtube.com/@" ++ v.identifier
        else if v.type = "channel_id" then
          "https://www.youtube.com/channel/" ++ v.identifier
        else if v.type = "c_format" then
          "https://www.youtube.com/c/" ++ v.identifier
        else if v.type = "user_format" then
          "https://www.youtube.com/user/" ++ v.identifier
        else url)

/-- The normalized URL `normalize_url` rebuilds for each shape. -/
def canonicalUrl : UrlKind → String → String
  | UrlKind.username, ident => "https://www.youtube.com/@" ++ ident
  | UrlKind.channelId, ident => "https://www.youtube.com/channel/" ++ ident
  | UrlKind.cFormat, ident => "https://www.youtube.com/c/" ++ ident
  | UrlKind.userFormat, ident => "https://www.youtube.com/user/" ++ ident

/-- The scheme, optional `www.` and pattern literal of a test URL. -/
def urlLead (secure www : Bool) (k : UrlKind) : List Char :=
  (if secure then ['h','t','t','p','s',':','/','/']
   else ['h','t','t','p',':','/','/']) ++
  (if www then ['w','w','w','.'] else []) ++ markerOf k

/-- A test URL of shape `k` with the given identifier, in any of the
http/https, www/no-www and trailing-slash variants. -/
def buildUrlData (secure www slash : Bool) (k : UrlKind)
    (ident : List Char) : List Char :=
  urlLead secure www k ++ ident ++ (if slash then ['/'] else [])

/-- An identifier character is never whitespace. -/
theorem ident_not_space {c : Char} (h : isIdentChar c = true) :
    isPySpace c = false := by
  by_contra hs
  rw [Bool.not_eq_false] at hs
  simp only [isPySpace, Bool.or_eq_true, beq_iff_eq] at hs
  rcases hs with ((((rfl | rfl) | rfl) | rfl) | rfl) | rfl <;>
    exact absurd h (by decide)

/-- `dropWhile` keeps a list none of whose characters satisfy `p`. -/
theorem dropWhile_all_neg (p : Char → Bool) (s : List Char)
    (h : ∀ c ∈ s, p c = false) : s.dropWhile p = s := by
  cases s with
  | nil => rfl
  | cons c cs =>
    have hc := h c (List.mem_cons_self c cs)
    simp [List.dropWhile_cons, hc]

/-- `str.strip()` is the identity on a string with no whitespace. -/
theorem pyStrip_eq_self (s : List Char) (h : ∀ c ∈ s, isPySpace c = false) :
    pyStrip s = s := by
  unfold pyStrip
  rw [dropWhile_all_neg isPySpace s h,
      dropWhile_all_neg isPySpace s.reverse
        (fun c hc => h c (List.mem_reverse.mp hc)),
      List.reverse_reverse]

/-- A built test URL contains no whitespace, so stripping keeps it. -/
theorem buildUrlData_noSpace (secure www slash : Bool) (k : UrlKind)
    (ident : List Char) (hident : ∀ c ∈ ident, isIdentChar c = true) :
    pyStrip (buildUrlData secure www slash k ident) =
      buildUrlData secure www slash k ident := by
  apply pyStrip_eq_self
  intro c hc
  unfold buildUrlData at hc
  rcases List.mem_append.mp hc with hc | hc
  · rcases List.mem_append.mp hc with hc | hc
    · have hall : ∀ x ∈ urlLead secure www k, isPySpace x = false := by
        cases secure <;> cases www <;> cases k <;> decide
      exact hall c hc
    · exact ident_not_space (hident c hc)
  · have hall : ∀ x ∈ (if slash then ['/'] else []), isPySpace x = false := by
      cases slash <;> decide
    exact hall c hc

/-- All characters satisfying `p` are kept whole by `takeWhile`. -/
theorem takeWhile_all (p : Char → Bool) (xs : List Char)
    (h : ∀ x ∈ xs, p x = true) : xs.takeWhile p = xs := by
  induction xs with
  | nil => rfl
  | cons x xs ih =>
    have hx := h x (List.mem_cons_self x xs)
    simp only [List.takeWhile_cons, hx, if_pos]
    exact congrArg (x :: ·) (ih fun y hy => h y (List.mem_cons_of_mem x hy))

/-- `dropLit` consumes exactly its literal. -/
theorem dropLit_self_append (lit r : List Char) :
    dropLit lit (lit ++ r) = some r := by
  induction lit with
  | nil => rfl
  | cons c cs ih => simp [dropLit, ih]

/-- The identifier tail of a well-formed channel URL: a nonempty
identifier followed by nothing or a single slash captures the
identifier. -/
theorem tailMatch_ident (ident tail0 : List Char) (hne : ident ≠ [])
    (hident : ∀ c ∈ ident, isIdentChar c = true)
    (htail : tail0 = [] ∨ tail0 = ['/']) :
    tailMatch (ident ++ tail0) = some ident := by
  rcases htail with rfl | rfl
  · rw [List.append_nil]
    unfold tailMatch
    rw [takeWhile_all isIdentChar ident hident, List.drop_length]
    rcases ident with _ | ⟨c, cs⟩
    · exact absurd rfl hne
    · simp
  · obtain ⟨htw, hdr⟩ :=
      takeWhile_block isIdentChar ident '/' [] hident (by decide)
    unfold tailMatch
    rw [htw, hdr]
    rcases ident with _ | ⟨c, cs⟩
    · exact absurd rfl hne
    · simp

/-- A pattern matches a test URL built for its own shape, capturing the
identifier. -/
theorem matchFormat_hit (secure www slash : Bool) (k : UrlKind)
    (ident : List Char) (hne : ident ≠ [])
    (hident : ∀ c ∈ ident, isIdentChar c = true) :
    matchFormat (markerOf k) (buildUrlData secure www slash k ident) =
      some ident := by
  have htm : tailMatch (ident ++ (if slash then ['/'] else [])) =
      some ident := by
    cases slash
    · exact tailMatch_ident ident [] hne hident (Or.inl rfl)
    · exact tailMatch_ident ident ['/'] hne hident (Or.inr rfl)
  cases secure <;> cases www <;> cases k <;>
    simp [matchFormat, buildUrlData, urlLead, markerOf, dropScheme, dropWww,
          dropLit, htm]

/-- A pattern never matches a test URL built for a different shape. -/
theorem matchFormat_miss (secure www slash : Bool) (k j : UrlKind)
    (hkj : k ≠ j) (ident : List Char) :
    matchFormat (markerOf k) (buildUrlData secure www slash j ident) =
      none := by
  cases k <;> cases j <;> first
  | exact absurd rfl hkj
  | (cases secure <;> cases www <;>
      simp [matchFormat, buildUrlData, urlLead, markerOf, dropScheme,
            dropWww, dropLit])

/-- C7 (amended): every URL in each of the four supported shapes — in all
http/https, www/no-www and trailing-slash variants — is accepted with the
correct identifier extracted and normalizes to one canonical URL that
depends only on the shape and identifier (hence is equal across the
variants); in particular the spec's example input is accepted with
identifier `exampleChan` and normalizes to
`https://www.youtube.com/@exampleChan`. The validator labels the handle
shape with the type string `"username"` (not `"handle"`). -/
theorem C7_url_validation :
    (∀ (secure www slash : Bool) (k : UrlKind) (ident : List Char),
      ident ≠ [] → (∀ c ∈ ident, isIdentChar c = true) →
      validate_url (String.mk (buildUrlData secure www slash k ident)) =
        Except.ok ⟨kindTypeName k, String.mk ident,
                   String.mk (buildUrlData secure www slash k ident)⟩ ∧
      normalize_url (String.mk (buildUrlData secure www slash k ident)) =
        Except.ok (canonicalUrl k (String.mk ident))) ∧
    validate_url "https://www.youtube.com/@exampleChan/" =
      Except.ok ⟨"username", "exampleChan",
                 "https://www.youtube.com/@exampleChan/"⟩ ∧
    normalize_url "https://www.youtube.com/@exampleChan/" =
      Except.ok "https://www.youtube.com/@exampleChan" := by
  refine ⟨?_, rfl, rfl⟩
  intro secure www slash k ident hne hident
  have hstrip := buildUrlData_noSpace secure www slash k ident hident
  have hhit := matchFormat_hit secure www slash k ident hne hident
  have hv : validate_url (String.mk (buildUrlData secure www slash k ident)) =
      Except.ok ⟨kindTypeName k, String.mk ident,
                 String.mk (buildUrlData secure www slash k ident)⟩ := by
    unfold validate_url
    cases k
    · simp [hstrip, hhit, kindTypeName]
    · have m1 := matchFormat_miss secure www slash UrlKind.username
        UrlKind.channelId (by decide) ident
      simp [hstrip, m1, hhit, kindTypeName]
    · have m1 := matchFormat_miss secure www slash UrlKind.username
        UrlKind.cFormat (by decide) ident
      have m2 := matchFormat_miss secure www slash UrlKind.channelId
        UrlKind.cFormat (by decide) ident
      simp [hstrip, m1, m2, hhit, kindTypeName]
    · have m1 := matchFormat_miss secure www slash UrlKind.username
        UrlKind.userFormat (by decide) ident
      have m2 := matchFormat_miss secure www slash UrlKind.channelId
        UrlKind.userFormat (by decide) ident
      have m3 := matchFormat_miss secure www slash UrlKind.cFormat
        UrlKind.userFormat (by decide) ident
      simp [hstrip, m1, m2, m3, hhit, kindTypeName]
  refine ⟨hv, ?_⟩
  unfold normalize_url
  rw [hv]
  cases k <;> simp [kindTypeName, canonicalUrl]

/-- Witness for C7 (amended): the handle-shape URL with identifier
`exampleChan`, https, www and a trailing slash, is accepted as type
`username` with the identifier extracted, and normalizes to the
canonical handle URL. -/
theorem C7_url_validation_witness :
    validate_url (String.mk (buildUrlData true true true UrlKind.username
        ['e','x','a','m','p','l','e','C','h','a','n'])) =
      Except.ok ⟨kindTypeName UrlKind.username,
        String.mk ['e','x','a','m','p','l','e','C','h','a','n'],
        String.mk (buildUrlData true true true UrlKind.username
          ['e','x','a','m','p','l','e','C','h','a','n'])⟩ ∧
    normalize_url (String.mk (buildUrlData true true true UrlKind.username
        ['e','x','a','m','p','l','e','C','h','a','n'])) =
      Except.ok (canonicalUrl UrlKind.username
        (String.mk ['e','x','a','m','p','l','e','C','h','a','n'])) :=
  C7_url_validation.1 true true true UrlKind.username
    ['e','x','a','m','p','l','e','C','h','a','n'] (by decide) (by decide)

/-- Counterexample to C7 as stated: at the claim's own example input the
validator reports type `"username"`, not `"handle"`; no result of kind
`"handle"` is ever produced. -/
theorem C7_counterexample :
    validate_url "https://www.youtube.com/@exampleChan/" =
      Except.ok ⟨"username", "exampleChan",
                 "https://www.youtube.com/@exampleChan/"⟩ ∧
    ("username" : String) ≠ "handle" := by
  exact ⟨rfl, by decide⟩

end YtTranscribe
